import Mathlib

/-!
Shallow embedding of the mp3-tool ID3v2.3 decoding core (src/lib.rs and
src/ID3.rs) and proofs of the specification claims about it.

Bytes are modelled as Nat values (u8 values are below 256); machine
arithmetic that can overflow is modelled explicitly.  A byte source (any
impl Read in lib.rs, the buffered Reader in ID3.rs) is modelled as the
list of bytes it still holds: read_exact n succeeds exactly when at least
n bytes remain and consumes them from the front.  Fallible Rust code
returns Except or Option; code that can panic (index out of bounds,
unwrap of None, u8 overflow in debug builds) returns a result type with
an explicit crash constructor.
-/

namespace Mp3Tool

/-- Decidable equality for Except, so claim theorems about parse results
can be settled by decide. -/
instance exceptDecEq {ε α : Type} [DecidableEq ε] [DecidableEq α] :
    DecidableEq (Except ε α) := fun a b =>
  match a, b with
  | .error e, .error f =>
    if h : e = f then isTrue (congrArg Except.error h)
    else isFalse (fun hh => h (Except.error.inj hh))
  | .ok x, .ok y =>
    if h : x = y then isTrue (congrArg Except.ok h)
    else isFalse (fun hh => h (Except.ok.inj hh))
  | .error _, .ok _ => isFalse Except.noConfusion
  | .ok _, .error _ => isFalse Except.noConfusion

/-- Errors of the sync-safe integer data type (lib.rs, enum SyncSafeError). -/
inductive SyncSafeError where
  | incorrectLength : Nat → SyncSafeError
deriving DecidableEq

/-- Errors of the ID3 structure creation functions (lib.rs, enum ID3Error). -/
inductive ID3Error where
  | headerNotFound : ID3Error
  | notEnoughBytes : ID3Error
deriving DecidableEq

/-- Result of a Rust computation that can also panic (index out of bounds,
unwrap of None, arithmetic overflow in debug builds). -/
inductive RustResult (α : Type) where
  | ok : α → RustResult α
  | crash : RustResult α
deriving DecidableEq

/-- Result of a Rust computation over a reader: success, an io error from a
short read, or a panic. -/
inductive ReaderResult (α : Type) where
  | ok : α → ReaderResult α
  | ioErr : ReaderResult α
  | crash : ReaderResult α
deriving DecidableEq

/-- lib.rs, impl From for SyncSafe: mask each of the 4 bytes with
0b_01111111 and or it into the value at shift 7 * (3 - i).  The loop over
i in 0..4 is unrolled; the u32 value never exceeds 2 to the 28 so the cast
never truncates. -/
def syncSafe_from_bytes (b0 b1 b2 b3 : Nat) : Nat :=
  (((b0 &&& 127) <<< 21) ||| ((b1 &&& 127) <<< 14)) |||
    (((b2 &&& 127) <<< 7) ||| ((b3 &&& 127) <<< 0))

/-- lib.rs, impl From of SyncSafe for Vec of u8: for i in 0..4 push
((value >> 7 * (3 - i)) as u8) masked with 0b_01111111; the as u8 cast
keeps the low 8 bits, modelled by mod 256. -/
def syncSafe_to_bytes (v : Nat) : List Nat :=
  [((v >>> 21) % 256) &&& 127, ((v >>> 14) % 256) &&& 127,
   ((v >>> 7) % 256) &&& 127, ((v >>> 0) % 256) &&& 127]

/-- lib.rs, impl TryFrom of Vec of u8 (and identically TryFrom of a byte
slice) for SyncSafe: error IncorrectLength when the length is not 4, else
build the sync-safe value from the 4 bytes. -/
def syncSafe_try_from (v : List Nat) : Except SyncSafeError Nat :=
  if v.length ≠ 4 then .error (.incorrectLength v.length)
  else .ok (syncSafe_from_bytes (v.getD 0 0) (v.getD 1 0) (v.getD 2 0) (v.getD 3 0))

/-- lib.rs, struct Header: identifier, version, flags and the sync-safe
decoded size. -/
structure Header where
  identifier : List Nat
  version : List Nat
  flags : Nat
  size : Nat
deriving DecidableEq

/-- lib.rs, Header::valid_bytes on a 10-byte array: identifier bytes are
0x49 0x44 0x33, both version bytes are below 0xFF, the low five bits of
the flags byte are zero, and each size byte is below 0x80. -/
def header_valid_bytes (b : List Nat) : Bool :=
  decide (b.take 3 = [0x49, 0x44, 0x33]) &&
  ((b.drop 3).take 2).all (fun x => decide (x < 0xFF)) &&
  decide (b.getD 5 0 &&& 0b11111 = 0) &&
  ((b.drop 6).take 4).all (fun x => decide (x < 0x80))

/-- lib.rs, Header::read_from: read exactly 10 bytes (error NotEnoughBytes
on a short source), reject them with HeaderNotFound unless valid_bytes
holds, then build the header.  The SyncSafe try_from unwrap on the 4-byte
size slice always succeeds because the slice has length 4. -/
def header_read_from (src : List Nat) : Except ID3Error Header :=
  if src.length < 10 then .error .notEnoughBytes
  else
    let bytes := src.take 10
    if header_valid_bytes bytes = false then .error .headerNotFound
    else .ok {
      identifier := bytes.take 3
      version := (bytes.drop 3).take 2
      flags := bytes.getD 5 0
      size := syncSafe_from_bytes (bytes.getD 6 0) (bytes.getD 7 0)
                (bytes.getD 8 0) (bytes.getD 9 0) }

/-- Shared layout of struct ExtendedHeader (lib.rs and ID3.rs): raw size
bytes, two flag bytes, four padding-size bytes and an optional 4-byte crc. -/
structure ExtendedHeader where
  size : List Nat
  flags : List Nat
  padding_size : List Nat
  crc : Option (List Nat)
deriving DecidableEq

/-- Big-endian value of 4 bytes: the sum over x in 0..4 of byte x shifted
left by 8 * (3 - x), as computed by the map-and-sum expressions in ID3.rs
and by u32::from_be_bytes in lib.rs. -/
def be_sum (l : List Nat) : Nat :=
  ((l.getD 0 0) <<< 24) + ((l.getD 1 0) <<< 16) +
    ((l.getD 2 0) <<< 8) + ((l.getD 3 0) <<< 0)

/-- lib.rs, ExtendedHeader::read_from: read 10 bytes (error NotEnoughBytes
on a short source); if byte 3 of those equals 10 read 4 further crc bytes
(error NotEnoughBytes when they are missing); fields are slices of the
first 10 bytes. -/
def extHeader_read_from (src : List Nat) : Except ID3Error ExtendedHeader :=
  if src.length < 10 then .error .notEnoughBytes
  else
    let header := src.take 10
    if header.getD 3 0 = 10 then
      if src.length < 14 then .error .notEnoughBytes
      else .ok {
        size := header.take 4
        flags := (header.drop 4).take 2
        padding_size := (header.drop 6).take 4
        crc := some ((src.drop 10).take 4) }
    else .ok {
      size := header.take 4
      flags := (header.drop 4).take 2
      padding_size := (header.drop 6).take 4
      crc := none }

/-- ID3.rs, ExtendedHeader::from_reader: read a 4-byte size field, compute
its big-endian value, then read exactly that many further bytes; a short
read at either step is an io error.  The crc is remaining bytes 6..10 when
the size is 10, and flags and padding_size index remaining bytes 0..6,
which panics when fewer than 6 bytes were declared. -/
def extHeader_from_reader (src : List Nat) : ReaderResult ExtendedHeader :=
  if src.length < 4 then .ioErr
  else
    let size := src.take 4
    let more := be_sum size
    if src.length < 4 + more then .ioErr
    else
      let remaining := (src.drop 4).take more
      if more = 10 then
        if remaining.length < 10 then .crash
        else .ok {
          size := size
          flags := [remaining.getD 0 0, remaining.getD 1 0]
          padding_size := [remaining.getD 2 0, remaining.getD 3 0,
                           remaining.getD 4 0, remaining.getD 5 0]
          crc := some [remaining.getD 6 0, remaining.getD 7 0,
                       remaining.getD 8 0, remaining.getD 9 0] }
      else
        if remaining.length < 6 then .crash
        else .ok {
          size := size
          flags := [remaining.getD 0 0, remaining.getD 1 0]
          padding_size := [remaining.getD 2 0, remaining.getD 3 0,
                           remaining.getD 4 0, remaining.getD 5 0]
          crc := none }

/-- lib.rs, struct FrameHeader: raw id, size and flag bytes. -/
structure FrameHeader where
  frame_id : List Nat
  size : List Nat
  flags : List Nat
deriving DecidableEq

/-- lib.rs, FrameHeader::read_from: read 10 bytes (error NotEnoughBytes on
a short source) and slice them into id, size and flags with no validation
of their content. -/
def frameHeader_read_from (src : List Nat) : Except ID3Error FrameHeader :=
  if src.length < 10 then .error .notEnoughBytes
  else
    let bytes := src.take 10
    .ok {
      frame_id := bytes.take 4
      size := (bytes.drop 4).take 4
      flags := (bytes.drop 8).take 2 }

/-- ID3.rs, ascii_from_bytes: push each byte as a one-byte character,
stopping before the first zero byte.  Strings are modelled as lists of
character code points. -/
def ascii_from_bytes : List Nat → List Nat
  | [] => []
  | b :: rest => if b = 0 then [] else b :: ascii_from_bytes rest

/-- ID3.rs, string_from_bytes: return none as soon as a byte is not ascii
(u8::is_ascii, value at most 127), otherwise push every byte, including
zero bytes, as a one-byte character. -/
def string_from_bytes : List Nat → Option (List Nat)
  | [] => some []
  | b :: rest =>
    if 127 < b then none
    else (string_from_bytes rest).map (fun s => b :: s)

/-- ID3.rs, Frame::id: string_from_bytes of the 4 raw id bytes, unwrapped;
the unwrap of None panics.  lib.rs FrameHeader::id unwraps the analogous
String::from_utf8 conversion of the same unvalidated bytes. -/
def frame_id (idBytes : List Nat) : RustResult (List Nat) :=
  match string_from_bytes idBytes with
  | some s => .ok s
  | none => .crash

/-- Model of String::from_utf16_lossy applied to a single 16-bit code
unit, as done per unit in ID3.rs utf16_from_bytes: a lone surrogate
(0xD800 to 0xDFFF) becomes the replacement character 0xFFFD, any other
unit is its own code point. -/
def utf16_lossy_unit (u : Nat) : Nat :=
  if 0xD800 ≤ u ∧ u ≤ 0xDFFF then 0xFFFD else u

/-- ID3.rs, the loop of utf16_from_bytes over the bytes after the BOM, two
at a time.  A lone trailing byte makes the index i + 1 fall out of bounds
(panic); the terminator test adds the two u8 bytes, which overflows (debug
panic) when the pair sums to 256 or more; a pair summing to zero breaks
the loop; any other pair is combined in BOM order into one code unit and
decoded lossily. -/
def utf16_pairs (normal : Bool) : List Nat → RustResult (List Nat)
  | [] => .ok []
  | [_] => .crash
  | a :: b :: rest =>
    if 256 ≤ a + b then .crash
    else if a + b = 0 then .ok []
    else
      let first := if normal then b else a
      let second := if normal then a else b
      match utf16_pairs normal rest with
      | .ok s => .ok (utf16_lossy_unit ((first <<< 8) + second) :: s)
      | .crash => .crash

/-- ID3.rs, utf16_from_bytes: index bytes 0 and 1 unconditionally (panic
when fewer than 2 bytes are given) to form the BOM; 0xFFFE (bytes FF FE)
selects normal order, 0xFEFF (bytes FE FF) the other order, anything else
returns the empty string; then walk the remaining bytes pairwise. -/
def utf16_from_bytes (bytes : List Nat) : RustResult (List Nat) :=
  match bytes with
  | [] => .crash
  | [_] => .crash
  | b0 :: b1 :: rest =>
    let bom := (b0 <<< 8) + b1
    if bom = 65534 then utf16_pairs true rest
    else if bom = 65279 then utf16_pairs false rest
    else .ok []

/-! Helper lemmas. -/

/-- Masking with 127 is reduction mod 128. -/
theorem and_127_eq_mod (x : Nat) : x &&& 127 = x % 128 := by
  have h := Nat.and_pow_two_sub_one_eq_mod x 7
  norm_num at h
  exact h

/-- Bitwise or of a multiple of 2 to the k with a value below 2 to the k
is their sum. -/
theorem lor_disjoint_add (k a b : Nat) (h : b < 2 ^ k) :
    (2 ^ k * a) ||| b = 2 ^ k * a + b :=
  (Nat.mul_add_lt_is_or h a).symm

/-- Arithmetic form of the sync-safe decoder: each byte reduced mod 128
and weighted by its 7-bit position. -/
theorem syncSafe_from_bytes_eq (b0 b1 b2 b3 : Nat) :
    syncSafe_from_bytes b0 b1 b2 b3 =
      2 ^ 21 * (b0 % 128) + 2 ^ 14 * (b1 % 128) + 2 ^ 7 * (b2 % 128) + b3 % 128 := by
  unfold syncSafe_from_bytes
  simp only [and_127_eq_mod, Nat.shiftLeft_eq, Nat.pow_zero, Nat.mul_one]
  rw [Nat.mul_comm (b0 % 128), Nat.mul_comm (b1 % 128), Nat.mul_comm (b2 % 128)]
  rw [lor_disjoint_add 7 (b2 % 128) (b3 % 128)
    (by have := Nat.mod_lt b3 (y := 128) (by norm_num); norm_num; omega)]
  rw [lor_disjoint_add 21 (b0 % 128) (2 ^ 14 * (b1 % 128))
    (by have := Nat.mod_lt b1 (y := 128) (by norm_num); norm_num; omega)]
  have hL : 2 ^ 21 * (b0 % 128) + 2 ^ 14 * (b1 % 128) =
      2 ^ 14 * (2 ^ 7 * (b0 % 128) + b1 % 128) := by ring
  rw [hL]
  rw [lor_disjoint_add 14 (2 ^ 7 * (b0 % 128) + b1 % 128) (2 ^ 7 * (b2 % 128) + b3 % 128)
    (by have h2 := Nat.mod_lt b2 (y := 128) (by norm_num)
        have h3 := Nat.mod_lt b3 (y := 128) (by norm_num)
        norm_num; omega)]
  ring

/-! Claim theorems. -/

/-- Claim C6: encoding after decoding a 4-byte array yields the array with
every byte masked to its low 7 bits, and decoding the masked array yields
the same 28-bit integer as decoding the original array. -/
theorem syncSafe_roundtrip (a0 a1 a2 a3 : Nat) :
    syncSafe_to_bytes (syncSafe_from_bytes a0 a1 a2 a3) =
      [a0 &&& 127, a1 &&& 127, a2 &&& 127, a3 &&& 127] ∧
    syncSafe_from_bytes (a0 &&& 127) (a1 &&& 127) (a2 &&& 127) (a3 &&& 127) =
      syncSafe_from_bytes a0 a1 a2 a3 := by
  constructor
  · unfold syncSafe_to_bytes
    simp only [and_127_eq_mod, Nat.shiftRight_eq_div_pow, syncSafe_from_bytes_eq,
      List.cons.injEq, and_true]
    norm_num
    refine ⟨?_, ?_, ?_, ?_⟩ <;> omega
  · simp only [and_127_eq_mod, syncSafe_from_bytes_eq]
    omega

/-- Claim C7: a source holding fewer than 10 bytes makes Header::read_from
fail with NotEnoughBytes, never HeaderNotFound, whatever the bytes are. -/
theorem header_read_from_short_read (src : List Nat) (h : src.length < 10) :
    header_read_from src = Except.error ID3Error.notEnoughBytes := by
  unfold header_read_from
  rw [if_pos h]

/-- Witness for claim C7 at a concrete 3-byte source. -/
theorem header_read_from_short_read_witness :
    ([0x49, 0x44, 0x33] : List Nat).length < 10 ∧
      header_read_from [0x49, 0x44, 0x33] = Except.error ID3Error.notEnoughBytes :=
  ⟨by decide, header_read_from_short_read [0x49, 0x44, 0x33] (by decide)⟩

/-- Claim C8: the length-checked SyncSafe constructors fail with
IncorrectLength carrying the actual length whenever the input length is
not 4, and always succeed on length exactly 4. -/
theorem syncSafe_try_from_length_check (v : List Nat) :
    (v.length ≠ 4 →
      syncSafe_try_from v = Except.error (SyncSafeError.incorrectLength v.length)) ∧
    (v.length = 4 →
      syncSafe_try_from v =
        Except.ok (syncSafe_from_bytes (v.getD 0 0) (v.getD 1 0) (v.getD 2 0) (v.getD 3 0))) := by
  unfold syncSafe_try_from
  constructor
  · intro h
    rw [if_pos h]
  · intro h
    rw [if_neg (by simp [h])]

/-- Witness for claim C8: a 3-byte input fails with IncorrectLength 3 and
a 4-byte input succeeds. -/
theorem syncSafe_try_from_length_check_witness :
    (([1, 2, 3] : List Nat).length ≠ 4 ∧
      syncSafe_try_from [1, 2, 3] = Except.error (SyncSafeError.incorrectLength 3)) ∧
    (([1, 2, 3, 4] : List Nat).length = 4 ∧
      syncSafe_try_from [1, 2, 3, 4] = Except.ok (syncSafe_from_bytes 1 2 3 4)) :=
  ⟨⟨by decide, (syncSafe_try_from_length_check [1, 2, 3]).1 (by decide)⟩,
   ⟨by decide, (syncSafe_try_from_length_check [1, 2, 3, 4]).2 (by decide)⟩⟩

/-- Characterization of Header::valid_bytes on an explicit 10-byte array. -/
theorem header_valid_bytes_iff (b0 b1 b2 b3 b4 b5 b6 b7 b8 b9 : Nat) :
    header_valid_bytes [b0, b1, b2, b3, b4, b5, b6, b7, b8, b9] = true ↔
      (b0 = 0x49 ∧ b1 = 0x44 ∧ b2 = 0x33 ∧ b3 < 0xFF ∧ b4 < 0xFF ∧
       b5 &&& 31 = 0 ∧ b6 < 0x80 ∧ b7 < 0x80 ∧ b8 < 0x80 ∧ b9 < 0x80) := by
  simp [header_valid_bytes]
  tauto

/-- Counterexample to claim C1: the 10 bytes below satisfy every condition
the claim lists (identifier ID3, low five flag bits zero, size bytes below
128), yet parsing rejects them with HeaderNotFound because the first
version byte is 0xFF. -/
theorem header_version_byte_counterexample :
    ([0x49, 0x44, 0x33, 0xFF, 0, 0, 0, 0, 0, 0] : List Nat).take 3 = [0x49, 0x44, 0x33] ∧
      ((0 : Nat) &&& 31 = 0) ∧
      (([0x49, 0x44, 0x33, 0xFF, 0, 0, 0, 0, 0, 0] : List Nat).drop 6).all
        (fun x => decide (x < 0x80)) = true ∧
      header_read_from [0x49, 0x44, 0x33, 0xFF, 0, 0, 0, 0, 0, 0] =
        Except.error ID3Error.headerNotFound := by decide

/-- Claim C1 as amended: parsing a 10-byte sequence succeeds exactly when
the identifier is ID3, BOTH version bytes are below 0xFF, the low five
bits of the flags byte are zero, and each size byte is below 0x80. -/
theorem header_read_from_ok_iff (b0 b1 b2 b3 b4 b5 b6 b7 b8 b9 : Nat) :
    (∃ hdr, header_read_from [b0, b1, b2, b3, b4, b5, b6, b7, b8, b9] = Except.ok hdr) ↔
      (b0 = 0x49 ∧ b1 = 0x44 ∧ b2 = 0x33 ∧ b3 < 0xFF ∧ b4 < 0xFF ∧
       b5 &&& 31 = 0 ∧ b6 < 0x80 ∧ b7 < 0x80 ∧ b8 < 0x80 ∧ b9 < 0x80) := by
  rw [← header_valid_bytes_iff]
  unfold header_read_from
  norm_num
  by_cases h : header_valid_bytes [b0, b1, b2, b3, b4, b5, b6, b7, b8, b9] = true
  · simp [h]
  · simp [h]

/-- Claim C2, code bug: ExtendedHeader::read_from in lib.rs tests only
byte 3 of the size field against 10, so a declared big-endian size of 266
(bytes 0 0 1 10) still makes it read and return a crc, although the size
is not 10 and the adjacent comment and both ID3.rs implementations demand
the full size value. -/
theorem extHeader_read_from_size_266_crc_some :
    be_sum [0, 0, 1, 10] = 266 ∧
      extHeader_read_from [0, 0, 1, 10, 0, 0, 0, 0, 0, 0, 0xDE, 0xAD, 0xBE, 0xEF] =
        Except.ok { size := [0, 0, 1, 10], flags := [0, 0], padding_size := [0, 0, 0, 0],
                    crc := some [0xDE, 0xAD, 0xBE, 0xEF] } := by decide

/-- Reading an element strictly inside the taken prefix sees the original
list. -/
theorem getD_take_earlier {α : Type} (l : List α) (n i : Nat) (d : α) (h : i < n) :
    (l.take n).getD i d = l.getD i d := by
  simp [List.getD_eq_getElem?_getD, List.getElem?_take_of_lt h]

/-- Counterexample to claim C3: a 10-byte source declaring extended-header
size 12 cannot supply the full 4 + 12 bytes the claim demands, yet
ExtendedHeader::read_from in lib.rs succeeds, because it always reads a
fixed 10 bytes and only reads further for a size byte 3 equal to 10. -/
theorem extHeader_read_from_framing_counterexample :
    be_sum [0, 0, 0, 12] = 12 ∧
      ([0, 0, 0, 12, 0, 0, 0, 0, 0, 0] : List Nat).length < 4 + 12 ∧
      extHeader_read_from [0, 0, 0, 12, 0, 0, 0, 0, 0, 0] =
        Except.ok { size := [0, 0, 0, 12], flags := [0, 0],
                    padding_size := [0, 0, 0, 0], crc := none } := by decide

/-- Claim C3 as amended: ExtendedHeader::from_reader in ID3.rs reads a
4-byte size field followed by exactly size bytes and fails with a short
read exactly when the source cannot supply those 4 + size bytes, while
ExtendedHeader::read_from in lib.rs instead fails with NotEnoughBytes
exactly when the source holds fewer than 10 bytes, or byte 3 of the size
field is 10 and it holds fewer than 14. -/
theorem extHeader_parse_not_enough_bytes_iff (src : List Nat) :
    (extHeader_from_reader src = ReaderResult.ioErr ↔
      src.length < 4 + be_sum (src.take 4)) ∧
    (extHeader_read_from src = Except.error ID3Error.notEnoughBytes ↔
      (src.length < 10 ∨ (src.getD 3 0 = 10 ∧ src.length < 14))) := by
  constructor
  · unfold extHeader_from_reader
    by_cases h1 : src.length < 4
    · simp only [if_pos h1, true_iff]
      have : 0 ≤ be_sum (src.take 4) := Nat.zero_le _
      omega
    · rw [if_neg h1]
      by_cases h2 : src.length < 4 + be_sum (src.take 4)
      · simp [h2]
      · rw [if_neg h2]
        by_cases h3 : be_sum (src.take 4) = 10
        · rw [if_pos h3]
          have hlen : ((src.drop 4).take (be_sum (src.take 4))).length = 10 := by
            simp [List.length_take, List.length_drop]
            omega
          rw [if_neg (by rw [hlen]; omega)]
          simp [h2]
        · rw [if_neg h3]
          split <;> simp [h2]
  · by_cases h1 : src.length < 10
    · simp [extHeader_read_from, h1]
    · by_cases h2 : src[3]?.getD 0 = 10
      · by_cases h3 : src.length < 14
        · simp [extHeader_read_from, h1, h2, h3, getD_take_earlier src 10 3 0 (by omega),
            List.getD_eq_getElem?_getD]
        · simp [extHeader_read_from, h1, h2, h3, getD_take_earlier src 10 3 0 (by omega),
            List.getD_eq_getElem?_getD]
      · simp [extHeader_read_from, h1, h2, getD_take_earlier src 10 3 0 (by omega),
          List.getD_eq_getElem?_getD]

/-- Counterexample to claim C4: on the all-ascii input 65 0 66,
string_from_bytes keeps every byte, including the zero byte and the byte
after it, while ascii_from_bytes stops before the zero byte, so the two
texts differ. -/
theorem string_from_bytes_nul_counterexample :
    ([65, 0, 66] : List Nat).all (fun x => decide (x ≤ 127)) = true ∧
      string_from_bytes [65, 0, 66] = some [65, 0, 66] ∧
      ascii_from_bytes [65, 0, 66] = [65] ∧
      string_from_bytes [65, 0, 66] ≠ some (ascii_from_bytes [65, 0, 66]) := by decide

/-- Claim C4 as amended: string_from_bytes returns none exactly when some
byte exceeds 127; on all-ascii input it returns ALL the bytes as
characters, with no stop at a zero byte; ascii_from_bytes returns the
prefix strictly before the first zero byte, so the two texts agree
exactly on zero-free ascii input. -/
theorem string_from_bytes_characterization (bytes : List Nat) :
    (string_from_bytes bytes = none ↔ ∃ b ∈ bytes, 127 < b) ∧
    ((∀ b ∈ bytes, b ≤ 127) → string_from_bytes bytes = some bytes) ∧
    ((∀ b ∈ bytes, b ≠ 0) → ascii_from_bytes bytes = bytes) ∧
    (ascii_from_bytes bytes = bytes.takeWhile (fun b => decide (b ≠ 0))) := by
  induction bytes with
  | nil => exact ⟨by simp [string_from_bytes], by simp [string_from_bytes],
      by simp [ascii_from_bytes], by simp [ascii_from_bytes]⟩
  | cons b rest ih =>
    refine ⟨?_, ?_, ?_, ?_⟩
    · by_cases h : 127 < b
      · simp [string_from_bytes, h]
      · simp only [string_from_bytes, if_neg h]
        rw [Option.map_eq_none']
        rw [ih.1]
        simp
        omega
    · intro hall
      have hb : ¬127 < b := by
        have := hall b (by simp)
        omega
      simp only [string_from_bytes, if_neg hb]
      rw [ih.2.1 (fun x hx => hall x (by simp [hx]))]
      rfl
    · intro hall
      have hb : b ≠ 0 := hall b (by simp)
      simp only [ascii_from_bytes, if_neg hb]
      rw [ih.2.2.1 (fun x hx => hall x (by simp [hx]))]
    · by_cases h : b = 0
      · simp [ascii_from_bytes, h]
      · simp [ascii_from_bytes, h, ih.2.2.2]

/-- Witness for claim C4 at the frame-id test input TIT2 and at an input
holding a non-ascii byte. -/
theorem string_from_bytes_characterization_witness :
    ((∀ b ∈ ([84, 73, 84, 50] : List Nat), b ≤ 127) ∧
      string_from_bytes [84, 73, 84, 50] = some [84, 73, 84, 50]) ∧
    (string_from_bytes [84, 255] = none ↔ ∃ b ∈ ([84, 255] : List Nat), 127 < b) :=
  ⟨⟨by decide, (string_from_bytes_characterization [84, 73, 84, 50]).2.1 (by decide)⟩,
   (string_from_bytes_characterization [84, 255]).1⟩

/-- Claim C9: FrameHeader parsing accepts arbitrary id bytes, and the id
accessor then panics on ids that are not valid ascii: here the 4 bytes
255 255 255 255 parse fine but Frame::id unwraps the None produced by
string_from_bytes. -/
theorem frame_id_panics_on_unvalidated_bytes :
    frameHeader_read_from [255, 255, 255, 255, 0, 0, 0, 37, 0, 0] =
        Except.ok { frame_id := [255, 255, 255, 255], size := [0, 0, 0, 37],
                    flags := [0, 0] } ∧
      frame_id [255, 255, 255, 255] = RustResult.crash := by decide

/-- Wellformedness of the bytes after the BOM for the utf16 loop: pairs
are complete up to the terminator and every pre-terminator pair sums to
less than 256, so no index or overflow panic can occur. -/
def pairs_ok : List Nat → Bool
  | [] => true
  | [_] => false
  | a :: b :: rest =>
    if 256 ≤ a + b then false
    else if a + b = 0 then true
    else pairs_ok rest

/-- The decode described by the specification sentence for decode_utf16:
walk 2-byte units, stop at the first all-zero pair, and turn every
earlier pair, combined in BOM order, into one lossily decoded code unit. -/
def spec_utf16_units (normal : Bool) : List Nat → List Nat
  | a :: b :: rest =>
    if a = 0 ∧ b = 0 then []
    else
      utf16_lossy_unit (((if normal then b else a) <<< 8) + (if normal then a else b)) ::
        spec_utf16_units normal rest
  | _ => []

/-- On wellformed pair lists the code loop computes exactly the decode the
specification describes. -/
theorem utf16_pairs_eq_spec (normal : Bool) :
    ∀ l : List Nat, pairs_ok l = true →
      utf16_pairs normal l = RustResult.ok (spec_utf16_units normal l)
  | [] => by
    intro h
    simp [utf16_pairs, spec_utf16_units]
  | [a] => by
    intro h
    simp [pairs_ok] at h
  | a :: b :: rest => by
    intro h
    simp only [pairs_ok] at h
    by_cases h1 : 256 ≤ a + b
    · simp [h1] at h
    · by_cases h2 : a + b = 0
      · have hz : a = 0 ∧ b = 0 := by omega
        simp [utf16_pairs, spec_utf16_units, h1, h2, hz]
      · have hrest : pairs_ok rest = true := by simp [h1, h2] at h; exact h
        have hr := utf16_pairs_eq_spec normal rest hrest
        have hz : ¬(a = 0 ∧ b = 0) := by omega
        simp [utf16_pairs, spec_utf16_units, h1, h2, hz, hr]

/-- Counterexample to claim C5: with a little-endian BOM, the pair 1 255
is not all-zero, so the claim makes it contribute the code unit 0xFF01
and the decode continue to the unit 65 before the all-zero terminator;
the code instead overflows the u8 addition of the terminator test on that
pair and never returns that string. -/
theorem utf16_overflow_counterexample :
    utf16_from_bytes [0xFF, 0xFE, 1, 255, 65, 0, 0, 0] = RustResult.crash ∧
      utf16_from_bytes [0xFF, 0xFE, 1, 255, 65, 0, 0, 0] ≠
        RustResult.ok [0xFF01, 65] := by decide

/-- Claim C5 as amended: when the bytes after the first two form complete
pairs whose pre-terminator sums stay below 256, decode_utf16 returns the
empty string unless the first two bytes are the BOM FF FE or FE FF, and
otherwise decodes 2-byte units from offset 2 in BOM order, stopping at
the first all-zero pair. -/
theorem utf16_from_bytes_spec (b0 b1 : Nat) (rest : List Nat)
    (h : pairs_ok rest = true) :
    utf16_from_bytes (b0 :: b1 :: rest) =
      (if (b0 <<< 8) + b1 = 65534 then RustResult.ok (spec_utf16_units true rest)
       else if (b0 <<< 8) + b1 = 65279 then RustResult.ok (spec_utf16_units false rest)
       else RustResult.ok []) := by
  simp only [utf16_from_bytes]
  by_cases h1 : (b0 <<< 8) + b1 = 65534
  · simp [h1, utf16_pairs_eq_spec true rest h]
  · by_cases h2 : (b0 <<< 8) + b1 = 65279
    · simp [h1, h2, utf16_pairs_eq_spec false rest h]
    · simp [h1, h2]

/-- Witness for claim C5 at a concrete little-endian input decoding to the
single character A. -/
theorem utf16_from_bytes_spec_witness :
    pairs_ok [65, 0, 0, 0] = true ∧
      utf16_from_bytes [255, 254, 65, 0, 0, 0] =
        (if ((255 : Nat) <<< 8) + 254 = 65534 then RustResult.ok (spec_utf16_units true [65, 0, 0, 0])
         else if ((255 : Nat) <<< 8) + 254 = 65279 then RustResult.ok (spec_utf16_units false [65, 0, 0, 0])
         else RustResult.ok []) :=
  ⟨by decide, utf16_from_bytes_spec 255 254 [65, 0, 0, 0] (by decide)⟩

/-- Claim C10: decode_utf16 panics on every input shorter than 2 bytes; a
lone trailing byte reached by the loop makes the index i + 1 fall out of
bounds; and a pair summing to 256 or more overflows the u8 addition of
the terminator test. -/
theorem utf16_partiality :
    (∀ l : List Nat, l.length < 2 → utf16_from_bytes l = RustResult.crash) ∧
    (∀ (normal : Bool) (x : Nat), utf16_pairs normal [x] = RustResult.crash) ∧
    (∀ (normal : Bool) (a b : Nat) (rest : List Nat),
      256 ≤ a + b → utf16_pairs normal (a :: b :: rest) = RustResult.crash) := by
  refine ⟨?_, ?_, ?_⟩
  · intro l h
    match l with
    | [] => rfl
    | [x] => rfl
    | a :: b :: r => exact absurd h (by simp)
  · intro normal x
    rfl
  · intro normal a b rest h
    simp [utf16_pairs, h]

/-- Witness for claim C10 at a one-byte input, a lone pair byte, and an
overflowing pair. -/
theorem utf16_partiality_witness :
    (([200] : List Nat).length < 2 ∧ utf16_from_bytes [200] = RustResult.crash) ∧
      utf16_pairs true [7] = RustResult.crash ∧
      (256 ≤ 128 + 128 ∧ utf16_pairs false (128 :: 128 :: []) = RustResult.crash) :=
  ⟨⟨by decide, utf16_partiality.1 [200] (by decide)⟩,
   utf16_partiality.2.1 true 7,
   by decide, utf16_partiality.2.2 false 128 128 [] (by decide)⟩

end Mp3Tool
